import Mathlib

/-!
Shallow embedding of the incremental deduplication / caching pipeline of
`reliable_news_db` (code/package/reliable_db/utils.py and the three
code/collect scripts), together with theorems settling the specification
claims about it.

Conventions of the embedding:
* A directory is represented by the list of filenames returned by
  `os.listdir`; file contents are passed in explicitly (lists of lines).
* Python exceptions are represented by `Except String`; the message is the
  one the source raises.
* External collaborators (the SERP fetch, newspaper3k download, the OpenAI
  summarize call, `random.uniform`) are oracle parameters, as the spec
  declares them out of scope.
-/

/-- A Python numeric argument as passed to `random_wait`: either an `int`
or some non-`int` number (modelled as a rational). `bool` arguments are
`int`s in Python and are not needed by any claim. -/
inductive PyNum
  | int (n : Int)
  | float (q : ℚ)
deriving DecidableEq

/-- `isinstance(item, int)` for a `PyNum`. -/
def PyNum.isInt : PyNum → Bool
  | .int _ => true
  | .float _ => false

/-- `random_wait` from `reliable_db/utils.py` (lines 12-21).
`u` is the oracle value returned by `random.uniform(mn, mx)`.
On integer arguments the function sleeps for `1 + u` seconds (returned as
`.ok` with the slept duration); otherwise it raises `ValueError` before
computing any duration (`.error`, no sleep). -/
def random_wait (u : ℚ) (mn mx : PyNum) : Except String ℚ :=
  if mn.isInt && mx.isInt then Except.ok (1 + u)
  else Except.error "min and max must be integers."

/-- `os.path.join(path, file)` for the common case of a relative second
component (the only case the scripts use). -/
def joinPath (path f : String) : String := path ++ "/" ++ f

/-- `sorted(os.listdir(path), reverse=True)` from `collect_last_x_files`:
the directory listing in descending lexicographic order. -/
def sortedDesc (files : List String) : List String :=
  List.insertionSort (fun a b => b ≤ a) files

instance : IsTotal String (fun a b => b ≤ a) :=
  ⟨fun a b => le_total b a⟩

instance : IsTrans String (fun a b => b ≤ a) :=
  ⟨fun _ _ _ hab hbc => le_trans hbc hab⟩

/-- `collect_last_x_files` from `reliable_db/utils.py` (lines 24-57).
`files` is the listing of the directory `path`; `num_paths` is `None` or an
`int`; `all` is `None` or a `bool` (its Python default is `None`, which
fails the `isinstance(all, bool)` check). The `isinstance(path, str)`
check is statically true in the embedding. Errors carry the message of the
`TypeError` / `ValueError` the source raises. -/
def collect_last_x_files (path : String) (files : List String)
    (num_paths : Option Int) (all : Option Bool) : Except String (List String) :=
  match all with
  | none => Except.error "`all` must be boolean."
  | some allB =>
    if allB && num_paths.isSome then
      Except.error "`num_paths` cannot be passed when `all == True`"
    else if !allB && num_paths.isNone then
      Except.error "`num_paths` must be an integer"
    else if num_paths.any (fun k => k ≤ 0) then
      Except.error "`num_paths` must be > 0"
    else
      match num_paths with
      | none => Except.ok ((sortedDesc files).map (joinPath path))
      | some k =>
        if allB || decide ((files.length : Int) < k) then
          Except.ok ((sortedDesc files).map (joinPath path))
        else
          Except.ok (((sortedDesc files).take k.toNat).map (joinPath path))

/-- Modelled from Python call semantics at the call sites
`collect_last_x_files(path=..., max_paths=NUM_DAYS)` in
`000_collect_serp_results.py` line 186 and
`002_summarize_article_data.py` lines 236 and 288: `max_paths` is not a
parameter of `collect_last_x_files`, so Python raises `TypeError` at the
call, before the function body runs. -/
def collect_call_with_max_paths (_dirFiles : List String) :
    Except String (List String) :=
  Except.error "collect_last_x_files() got an unexpected keyword argument max_paths"

/-- One line of a newline-delimited JSON cache file, as seen by
`build_existing_links_set` in `000_collect_serp_results.py`:
either `json.loads` raises (`invalid`), or it yields an object on which
`record["link"]` raises `KeyError` (`objWithoutLink`), or it yields an
object with a `link` field. -/
inductive JsonLine
  | invalid
  | objWithoutLink
  | objWithLink (link : String)
deriving DecidableEq

/-- The value `record["link"]` extracted from a line, `none` when
`json.loads` or the key lookup raises. -/
def JsonLine.linkOf : JsonLine → Option String
  | .invalid => none
  | .objWithoutLink => none
  | .objWithLink s => some s

/-- Inner loop of `build_existing_links_set` over the lines of one file:
`record = json.loads(line); urls.add(record["link"])`. The surrounding
`try` is outside the loop, so the first raising line aborts the whole scan
(`none`). -/
def scan_lines (urls : Finset String) : List JsonLine → Option (Finset String)
  | [] => some urls
  | l :: rest =>
    match l.linkOf with
    | some s => scan_lines (insert s urls) rest
    | none => none

/-- Outer loop of `build_existing_links_set` over the window files. -/
def scan_files (urls : Finset String) :
    List (List JsonLine) → Option (Finset String)
  | [] => some urls
  | f :: rest =>
    match scan_lines urls f with
    | some urls2 => scan_files urls2 rest
    | none => none

/-- `build_existing_links_set` from `000_collect_serp_results.py`
(lines 72-94). `files` holds the lines of each window file. The `try`
wraps both loops; on the first raising line control reaches the `except`
block, which prints and falls off the end of the function, returning
`None`. -/
def build_existing_links_set (files : List (List JsonLine)) :
    Option (Finset String) :=
  scan_files ∅ files

/-- An article record (`StageRecord` of the spec): the identity key
`link`, the article `text`, and the summary enrichment added by the
summarize stage. Missing-key lookups are out of scope: every record the
claims quantify over has its `link` field. -/
structure Art where
  link : String
  text : String
  summary : Option String := none
deriving DecidableEq, Repr

/-- `download_article_text` from `001_collect_article_data.py`
(lines 76-96). `fetch url` is the newspaper3k download+parse oracle; the
function catches every exception and returns the empty string in that
case. -/
def download_article_text (fetch : String → Except String String)
    (url : String) : String :=
  match fetch url with
  | Except.ok t => t
  | Except.error _ => ""

/-- `load_downloaded_links` from `001_collect_article_data.py`
(lines 99-121) and `002_summarize_article_data.py` (lines 164-187):
the union of the (stripped) lines of the given link files, used only for
membership tests, so modelled as the flattened list of lines. -/
def load_downloaded_links (files : List (List String)) : List String :=
  files.flatten

/-- The list comprehension `[json.loads(line) for line in f]` of
`load_article_records`: the first unparseable line raises, aborting the
whole comprehension. -/
def load_article_records_go {R : Type} : List (Option R) → Option (List R)
  | [] => some []
  | some r :: rest => (load_article_records_go rest).map (r :: ·)
  | none :: _ => none

/-- `load_article_records` from `001_collect_article_data.py`
(lines 124-143) / `002_summarize_article_data.py` (lines 189-208):
each line is `some record` when `json.loads` succeeds, `none` when it
raises; on any exception the function returns `[]`, discarding even the
records parsed before the bad line. -/
def load_article_records {R : Type} (lines : List (Option R)) : List R :=
  (load_article_records_go lines).getD []

/-- The `for` loop of `process_articles` in `001_collect_article_data.py`
(lines 173-199), taking the downloaded-links cache as an argument
(its in-function construction at line 169 raises `TypeError`; see
`process_articles`). `idx` is the 1-based `enumerate` counter. Returns the
records appended to the day's article file, the links appended to the
day's cache file, and the list of `idx` values at which `random_wait` ran.
The body mirrors the source order: wait when `idx != 1`, then the cache
check, then the download and the two appends. Nothing in the body raises
(the download swallows its exceptions), so the `try` around the loop never
fires. The in-memory set `cache` is never extended. -/
def process_articles_loop (fetch : String → Except String String)
    (cache : List String) (idx : Nat) :
    List Art → List Art × List String × List Nat
  | [] => ([], [], [])
  | a :: rest =>
    let w : List Nat := if idx = 1 then [] else [idx]
    if a.link ∈ cache then
      let p := process_articles_loop fetch cache (idx + 1) rest
      (p.1, p.2.1, w ++ p.2.2)
    else
      let enriched : Art := { a with text := download_article_text fetch a.link }
      let p := process_articles_loop fetch cache (idx + 1) rest
      (enriched :: p.1, a.link :: p.2.1, w ++ p.2.2)

/-- `process_articles` from `001_collect_article_data.py` (lines 146-203).
It first calls `collect_last_x_files(DOWNLOADED_LINKS_DIR, NUM_DAYS)` —
positionally, leaving `all` at its `None` default — which raises
`TypeError`; only if that returned would it build the cache and run the
loop. `dirListing` is the listing of the downloaded-links directory and
`readFile` the contents of each of its files. -/
def process_articles (fetch : String → Except String String)
    (dirListing : List String) (readFile : String → List String)
    (records : List Art) : Except String (List Art × List String × List Nat) :=
  match collect_last_x_files "../../data/article_data/downloaded_links"
      dirListing (some 4) none with
  | Except.error e => Except.error e
  | Except.ok files =>
    let cache := load_downloaded_links (files.map readFile)
    Except.ok (process_articles_loop fetch cache 1 records)

/-- The `for` loop of `summarize_articles` in
`002_summarize_article_data.py` (lines 241-273), taking the
summarized-links cache as an argument. `work` is the composite
trim + `summarize` + `parse_response` + `article.update` step; it models
the only raising operation of the body (the `summarize` call re-raises
after its retries are exhausted). The `try` is outside the loop, so on the
first failing candidate the `except` block logs and the loop ends: nothing
further is appended. There is no pacing call in this loop, and the
in-memory set `cache` is never extended. -/
def summarize_articles_loop (work : Art → Except String Art)
    (cache : List String) : List Art → List Art × List String
  | [] => ([], [])
  | a :: rest =>
    if a.link ∈ cache then
      summarize_articles_loop work cache rest
    else
      match work a with
      | Except.error _ => ([], [])
      | Except.ok enriched =>
        let p := summarize_articles_loop work cache rest
        (enriched :: p.1, a.link :: p.2)

/-- `summarize_articles` from `002_summarize_article_data.py`
(lines 211-275). It first calls
`collect_last_x_files(path=DOWNLOADED_LINKS_DIR, max_paths=NUM_DAYS)`,
which raises `TypeError` (`max_paths` is not a parameter); only if that
returned would it build the cache and run the loop. -/
def summarize_articles (work : Art → Except String Art)
    (dirListing : List String) (readFile : String → List String)
    (records : List Art) : Except String (List Art × List String) :=
  match collect_call_with_max_paths dirListing with
  | Except.error e => Except.error e
  | Except.ok files =>
    let cache := load_downloaded_links (files.map readFile)
    Except.ok (summarize_articles_loop work cache records)

/-- A download oracle that always succeeds, for concrete runs. -/
def fetchOk : String → Except String String :=
  fun _ => Except.ok "body"

/-- A summarize oracle that fails exactly on the link `"b"`, for concrete
runs. -/
def workB : Art → Except String Art :=
  fun a =>
    if a.link = "b" then Except.error "APIError"
    else Except.ok { a with summary := some "sum" }

/-- A cache file holding nine valid records followed by one line on which
`json.loads` raises. -/
def nineValidOneBad : List JsonLine :=
  [JsonLine.objWithLink "u1", JsonLine.objWithLink "u2",
   JsonLine.objWithLink "u3", JsonLine.objWithLink "u4",
   JsonLine.objWithLink "u5", JsonLine.objWithLink "u6",
   JsonLine.objWithLink "u7", JsonLine.objWithLink "u8",
   JsonLine.objWithLink "u9", JsonLine.invalid]

/-- Claim C6 (confirmed). Window bound respected: for every directory
listing and every `k > 0`, `collect_last_x_files` with `all = False` and
`num_paths = k` returns (without raising) exactly the first `k.toNat`
entries of the descending-lexicographic sort of the listing, joined to the
directory path; that selection has length `min k n`, is sorted in
descending lexicographic order, and together with the dropped remainder is
a permutation of the listing in which every dropped name is `≤` every
selected name (the selection is the `k` largest). With an empty listing
the first conjunct evaluates to `.ok []`: no exception. -/
theorem collect_window_bound (path : String) (files : List String) (k : Int)
    (hk : 0 < k) :
    collect_last_x_files path files (some k) (some false)
      = Except.ok (((sortedDesc files).take k.toNat).map (joinPath path))
    ∧ ((sortedDesc files).take k.toNat).length = min k.toNat files.length
    ∧ List.Sorted (fun a b => b ≤ a) ((sortedDesc files).take k.toNat)
    ∧ List.Perm
        (((sortedDesc files).take k.toNat) ++ ((sortedDesc files).drop k.toNat))
        files
    ∧ ∀ x ∈ (sortedDesc files).take k.toNat,
        ∀ y ∈ (sortedDesc files).drop k.toNat, y ≤ x := by
  have hlen : (sortedDesc files).length = files.length :=
    List.length_insertionSort _ _
  have hsorted : List.Sorted (fun a b => b ≤ a) (sortedDesc files) :=
    List.sorted_insertionSort _ _
  refine ⟨?_, ?_, ?_, ?_, ?_⟩
  · have hknot : ¬ (k ≤ 0) := not_le.mpr hk
    by_cases hbig : (files.length : Int) < k
    · have htake : (sortedDesc files).take k.toNat = sortedDesc files := by
        apply List.take_of_length_le
        rw [hlen]
        exact le_of_lt (Int.lt_toNat.mpr hbig)
      simp [collect_last_x_files, hknot, hbig, htake]
    · simp [collect_last_x_files, hknot, hbig]
  · rw [List.length_take, hlen]
  · exact hsorted.sublist (List.take_sublist _ _)
  · rw [List.take_append_drop]
    exact List.perm_insertionSort _ _
  · have hsplit : List.Pairwise (fun a b => b ≤ a)
        (((sortedDesc files).take k.toNat) ++ ((sortedDesc files).drop k.toNat)) := by
      rw [List.take_append_drop]
      exact hsorted
    intro x hx y hy
    exact (List.pairwise_append.mp hsplit).2.2 x hx y hy

/-- Witness for C6 at a concrete input: directory `"d"` with listing
`["a", "c", "b"]` and `k = 2`. -/
theorem collect_window_bound_witness :
    collect_last_x_files "d" ["a", "c", "b"] (some 2) (some false)
      = Except.ok (((sortedDesc ["a", "c", "b"]).take (2 : Int).toNat).map (joinPath "d")) :=
  (collect_window_bound "d" ["a", "c", "b"] 2 (by decide)).1

/-- Claim C7 (confirmed). Invalid window size rejected: for every `k ≤ 0`
and every directory argument, `collect_last_x_files` with `all = False`
and `num_paths = k` raises `ValueError` (it does not return a list). -/
theorem collect_rejects_nonpositive (path : String) (files : List String)
    (k : Int) (hk : k ≤ 0) :
    collect_last_x_files path files (some k) (some false)
      = Except.error "`num_paths` must be > 0" := by
  simp [collect_last_x_files, hk]

/-- Witness for C7 at `k = 0` on an empty directory. -/
theorem collect_rejects_nonpositive_witness :
    collect_last_x_files "d" [] (some 0) (some false)
      = Except.error "`num_paths` must be > 0" :=
  collect_rejects_nonpositive "d" [] 0 (by decide)

/-- Claim C9 (confirmed). Pacing Governor duration: for integer arguments
`a`, `b` and an oracle draw `u` of `random.uniform(a, b)` (so
`a ≤ u ≤ b`), `random_wait` sleeps for exactly `1 + u` seconds, a duration
in `[a + 1, b + 1]`; and for any arguments of which at least one is not an
`int`, it raises `ValueError` and produces no sleep duration. -/
theorem random_wait_duration (a b : Int) (u : ℚ)
    (hlo : (a : ℚ) ≤ u) (hhi : u ≤ (b : ℚ)) :
    (random_wait u (PyNum.int a) (PyNum.int b) = Except.ok (1 + u)
      ∧ (a : ℚ) + 1 ≤ 1 + u ∧ 1 + u ≤ (b : ℚ) + 1)
    ∧ ∀ (v : ℚ) (p q : PyNum), (p.isInt = false ∨ q.isInt = false) →
        random_wait v p q = Except.error "min and max must be integers." := by
  refine ⟨⟨rfl, by linarith, by linarith⟩, ?_⟩
  intro v p q hpq
  rcases hpq with h | h <;> simp [random_wait, h]

/-- Witness for C9 at `a = 1`, `b = 5`, `u = 2`. -/
theorem random_wait_duration_witness :
    random_wait 2 (PyNum.int 1) (PyNum.int 5) = Except.ok (1 + 2)
      ∧ ((1 : Int) : ℚ) + 1 ≤ 1 + 2 ∧ 1 + 2 ≤ ((5 : Int) : ℚ) + 1 :=
  (random_wait_duration 1 5 2 (by norm_num) (by norm_num)).1

/-- Helper: the line scan aborts (`none`) as soon as some line of the file
fails to yield a link. -/
theorem scan_lines_eq_none (lines : List JsonLine) (urls : Finset String)
    (h : ∃ l ∈ lines, JsonLine.linkOf l = none) :
    scan_lines urls lines = none := by
  induction lines generalizing urls with
  | nil => simp at h
  | cons l rest ih =>
    obtain ⟨l0, hl0, hbad⟩ := h
    rcases List.mem_cons.mp hl0 with rfl | hmem
    · simp [scan_lines, hbad]
    · cases hcur : JsonLine.linkOf l with
      | none => simp [scan_lines, hcur]
      | some s => simp [scan_lines, hcur, ih _ ⟨l0, hmem, hbad⟩]

/-- Helper: when every line of the file yields a link, the line scan adds
exactly those links to the accumulator. -/
theorem scan_lines_eq_some (lines : List JsonLine) (urls : Finset String)
    (h : ∀ l ∈ lines, (JsonLine.linkOf l).isSome) :
    scan_lines urls lines
      = some (urls ∪ (lines.filterMap JsonLine.linkOf).toFinset) := by
  induction lines generalizing urls with
  | nil => simp [scan_lines]
  | cons l rest ih =>
    cases l with
    | invalid =>
      have hcontra := h JsonLine.invalid (by simp)
      simp [JsonLine.linkOf] at hcontra
    | objWithoutLink =>
      have hcontra := h JsonLine.objWithoutLink (by simp)
      simp [JsonLine.linkOf] at hcontra
    | objWithLink s =>
      have hrest : ∀ l ∈ rest, (JsonLine.linkOf l).isSome :=
        fun x hx => h x (by simp [hx])
      have hfm : List.filterMap JsonLine.linkOf (JsonLine.objWithLink s :: rest)
          = s :: List.filterMap JsonLine.linkOf rest := by
        simp [List.filterMap_cons, JsonLine.linkOf]
      show scan_lines (insert s urls) rest = _
      rw [ih (insert s urls) hrest, hfm, List.toFinset_cons,
        Finset.insert_union, Finset.union_insert]

/-- Helper: the file scan aborts (`none`) when some file holds a bad line. -/
theorem scan_files_eq_none (files : List (List JsonLine)) (urls : Finset String)
    (h : ∃ f ∈ files, ∃ l ∈ f, JsonLine.linkOf l = none) :
    scan_files urls files = none := by
  induction files generalizing urls with
  | nil => simp at h
  | cons f rest ih =>
    by_cases hf : ∃ l ∈ f, JsonLine.linkOf l = none
    · simp [scan_files, scan_lines_eq_none f urls hf]
    · have hgood : ∀ l ∈ f, (JsonLine.linkOf l).isSome := by
        intro l hl
        cases hcur : JsonLine.linkOf l with
        | none => exact absurd ⟨l, hl, hcur⟩ hf
        | some s => rfl
      obtain ⟨f0, hf0, hbad⟩ := h
      rcases List.mem_cons.mp hf0 with rfl | hmem
      · exact absurd hbad hf
      · simp [scan_files, scan_lines_eq_some f urls hgood, ih _ ⟨f0, hmem, hbad⟩]

/-- Helper: when every line of every file yields a link, the file scan
collects exactly all links. -/
theorem scan_files_eq_some (files : List (List JsonLine)) (urls : Finset String)
    (h : ∀ f ∈ files, ∀ l ∈ f, (JsonLine.linkOf l).isSome) :
    scan_files urls files
      = some (urls ∪ (files.flatten.filterMap JsonLine.linkOf).toFinset) := by
  induction files generalizing urls with
  | nil => simp [scan_files]
  | cons f rest ih =>
    have hf : ∀ l ∈ f, (JsonLine.linkOf l).isSome := h f (by simp)
    have hrest : ∀ f0 ∈ rest, ∀ l ∈ f0, (JsonLine.linkOf l).isSome :=
      fun f0 hf0 => h f0 (by simp [hf0])
    simp only [scan_files, scan_lines_eq_some f urls hf, ih _ hrest,
      List.flatten_cons, List.filterMap_append, List.toFinset_append]
    rw [Finset.union_assoc]

/-- Helper: the record-file comprehension raises when any line is
unparseable. -/
theorem load_article_records_go_eq_none {R : Type} (lines : List (Option R))
    (h : none ∈ lines) : load_article_records_go lines = none := by
  induction lines with
  | nil => simp at h
  | cons l rest ih =>
    cases l with
    | none => rfl
    | some r =>
      have hrest : none ∈ rest := by
        rcases List.mem_cons.mp h with hcontra | hmem
        · exact absurd hcontra.symm (Option.some_ne_none r)
        · exact hmem
      simp [load_article_records_go, ih hrest]

/-- Claim C3 (corrected), counterexample. The claim predicts that a window
file with nine valid records and one malformed line yields the set of the
nine valid keys. On the code, the `try` of `build_existing_links_set`
wraps the whole scan, so the malformed line sends control to the `except`
block and the function returns `None` — not the nine-key set. -/
theorem malformed_line_aborts_build_cex :
    build_existing_links_set [nineValidOneBad] = none
    ∧ build_existing_links_set [nineValidOneBad]
        ≠ some ({"u1", "u2", "u3", "u4", "u5", "u6", "u7", "u8", "u9"} :
          Finset String) := by
  have h : build_existing_links_set [nineValidOneBad] = none :=
    scan_files_eq_none [nineValidOneBad] ∅ (by decide)
  exact ⟨h, by rw [h]; simp⟩

/-- Claim C3 (corrected), amended. A line that fails to parse (or lacks
the `link` field) aborts the whole build: `build_existing_links_set`
returns `None` whenever any window file holds such a line, discarding even
the valid keys; only when every line is valid does it return the set of
all keys; with an empty file list it does return the empty set (that part
of the claim holds). Likewise `load_article_records` returns `[]`, not the
valid remainder, when any line of the file is unparseable. -/
theorem build_links_set_abort_semantics :
    build_existing_links_set [] = some ∅
    ∧ (∀ files : List (List JsonLine),
        (∃ f ∈ files, ∃ l ∈ f, JsonLine.linkOf l = none) →
        build_existing_links_set files = none)
    ∧ (∀ files : List (List JsonLine),
        (∀ f ∈ files, ∀ l ∈ f, (JsonLine.linkOf l).isSome) →
        build_existing_links_set files
          = some (files.flatten.filterMap JsonLine.linkOf).toFinset)
    ∧ (∀ (R : Type) (lines : List (Option R)), none ∈ lines →
        load_article_records lines = []) := by
  refine ⟨rfl, ?_, ?_, ?_⟩
  · intro files h
    exact scan_files_eq_none files ∅ h
  · intro files h
    rw [build_existing_links_set, scan_files_eq_some files ∅ h,
      Finset.empty_union]
  · intro R lines h
    rw [load_article_records, load_article_records_go_eq_none lines h]
    rfl

/-- Witness for the amended C3 at a concrete two-file window of valid
lines. -/
theorem build_links_set_abort_semantics_witness :
    build_existing_links_set
        [[JsonLine.objWithLink "x"], [JsonLine.objWithLink "y"]]
      = some ([[JsonLine.objWithLink "x"],
          [JsonLine.objWithLink "y"]].flatten.filterMap JsonLine.linkOf).toFinset :=
  build_links_set_abort_semantics.2.2.1 _ (by decide)

/-- Claim C1 (corrected), counterexample. Three candidates `a`, `b`, `c`
with an empty cache, where the summarize unit of work raises on `b`
(`workB`). The claim predicts that items one AND three are processed and
recorded; on the code the `try` wraps the whole loop, so the exception on
item two ends the batch: only item one is appended, item three is never
processed. -/
theorem summarize_failure_halts_batch_cex :
    (summarize_articles_loop workB []
        [{ link := "a", text := "t" }, { link := "b", text := "t" },
         { link := "c", text := "t" }]).1.map Art.link = ["a"]
    ∧ (summarize_articles_loop workB []
        [{ link := "a", text := "t" }, { link := "b", text := "t" },
         { link := "c", text := "t" }]).2 = ["a"] := by
  constructor <;> rfl

/-- Claim C1 (corrected), amended. If the unit of work raises for one
candidate (the first non-skipped failing one), the runner logs once and
ABORTS the batch: candidates before the failing one are processed and
recorded as usual, but no candidate after it is processed — the loop
result equals the result on the prefix alone. (In the download stage the
unit of work never raises, because `download_article_text` swallows every
exception, so its loop is not aborted this way.) -/
theorem summarize_failure_aborts_remaining (work : Art → Except String Art)
    (cache : List String) (pre post : List Art) (bad : Art)
    (hpre : ∀ a ∈ pre, a.link ∈ cache ∨ ∃ enriched, work a = Except.ok enriched)
    (hskip : bad.link ∉ cache) (hbad : ∃ e, work bad = Except.error e) :
    summarize_articles_loop work cache (pre ++ bad :: post)
      = summarize_articles_loop work cache pre := by
  induction pre with
  | nil =>
    obtain ⟨e, he⟩ := hbad
    simp [summarize_articles_loop, hskip, he]
  | cons a pre ih =>
    have hrest : ∀ x ∈ pre, x.link ∈ cache ∨ ∃ enriched, work x = Except.ok enriched :=
      fun x hx => hpre x (by simp [hx])
    rcases hpre a (by simp) with hmem | ⟨enriched, henr⟩
    · simp [summarize_articles_loop, hmem, ih hrest]
    · by_cases hc : a.link ∈ cache
      · simp [summarize_articles_loop, hc, ih hrest]
      · simp [summarize_articles_loop, hc, henr, ih hrest]

/-- Witness for the amended C1 on the three-candidate batch of the
counterexample. -/
theorem summarize_failure_aborts_remaining_witness :
    summarize_articles_loop workB []
        [{ link := "a", text := "t" }, { link := "b", text := "t" },
         { link := "c", text := "t" }]
      = summarize_articles_loop workB [] [{ link := "a", text := "t" }] :=
  summarize_failure_aborts_remaining workB [] [{ link := "a", text := "t" }]
    [{ link := "c", text := "t" }] { link := "b", text := "t" }
    (by
      intro a ha
      simp only [List.mem_singleton] at ha
      subst ha
      exact Or.inr ⟨_, rfl⟩)
    (by simp) ⟨"APIError", rfl⟩

/-- Claim C2 (corrected), counterexample. One candidate with link `"u"`,
empty cache, whose download fails. The claim predicts that nothing is
appended for a failing candidate; on the code `download_article_text`
swallows the exception and returns `""`, so the record IS appended (with
empty text) and `"u"` IS appended to the day's key-cache file — on the
next run it is found in the rebuilt key set and never retried. -/
theorem download_failure_still_recorded_cex :
    (process_articles_loop (fun _ => Except.error "download error") [] 1
        [{ link := "u", text := "t0" }]).1
      = [{ link := "u", text := "" }]
    ∧ "u" ∈ (process_articles_loop (fun _ => Except.error "download error") [] 1
        [{ link := "u", text := "t0" }]).2.1 := by
  constructor
  · rfl
  · simp [process_articles_loop]

/-- Claim C2 (corrected), amended. In the download stage a failing unit of
work is swallowed: the candidate's record is appended with empty text and
its key is appended to the day's key-cache file, so it is NOT retried on
the next run. Only in the summarize stage does a raising unit of work
append nothing for the failing candidate (and there it also ends the
batch, so nothing after it is appended either). -/
theorem failure_append_behavior (fetch : String → Except String String)
    (work : Art → Except String Art) (cache : List String) (idx : Nat)
    (a : Art) (rest : List Art) (e es : String)
    (hdl : fetch a.link = Except.error e)
    (hsum : work a = Except.error es)
    (hskip : a.link ∉ cache) :
    (process_articles_loop fetch cache idx (a :: rest)).1
        = { a with text := "" }
            :: (process_articles_loop fetch cache (idx + 1) rest).1
    ∧ (process_articles_loop fetch cache idx (a :: rest)).2.1
        = a.link :: (process_articles_loop fetch cache (idx + 1) rest).2.1
    ∧ summarize_articles_loop work cache (a :: rest) = ([], []) := by
  refine ⟨?_, ?_, ?_⟩
  · simp [process_articles_loop, hskip, download_article_text, hdl]
  · simp [process_articles_loop, hskip]
  · simp [summarize_articles_loop, hskip, hsum]

/-- Witness for the amended C2 at the single failing candidate `"u"`. -/
theorem failure_append_behavior_witness :
    (process_articles_loop (fun _ => Except.error "dl") [] 1
        [{ link := "u", text := "t0" }]).1
        = { link := "u", text := "" }
            :: (process_articles_loop (fun _ => Except.error "dl") [] 2 []).1
    ∧ (process_articles_loop (fun _ => Except.error "dl") [] 1
        [{ link := "u", text := "t0" }]).2.1
        = "u" :: (process_articles_loop (fun _ => Except.error "dl") [] 2 []).2.1
    ∧ summarize_articles_loop (fun _ => Except.error "api") []
        [{ link := "u", text := "t0" }] = ([], []) :=
  failure_append_behavior (fun _ => Except.error "dl")
    (fun _ => Except.error "api") [] 1 { link := "u", text := "t0" } []
    "dl" "api" rfl rfl (by simp)

/-- Claim C4 (corrected), counterexample. Two candidates with the same
link `"u"` and an empty cache: the claim predicts the key is processed at
most once within the run; on the code the in-memory set is never updated
after a success, so `"u"` is downloaded and appended twice. -/
theorem duplicate_key_processed_twice_cex :
    (process_articles_loop fetchOk [] 1
        [{ link := "u", text := "x" }, { link := "u", text := "y" }]).2.1
      = ["u", "u"]
    ∧ ((process_articles_loop fetchOk [] 1
        [{ link := "u", text := "x" }, { link := "u", text := "y" }]).2.1).count "u"
      = 2 := by
  constructor <;> rfl

/-- Claim C4 (corrected), amended. The runner never adds a processed key
to the in-memory cache during the run (it only appends it to the on-disk
cache file, which is not re-read within the run): a candidate is skipped
exactly when its key is in the cache built at the start of the run, so a
key appearing in several candidates and absent from that initial cache is
processed and appended once per occurrence. -/
theorem links_cache_not_updated_in_run (fetch : String → Except String String)
    (cache : List String) (idx : Nat) (records : List Art) :
    (process_articles_loop fetch cache idx records).2.1
      = (records.filter (fun a => decide (a.link ∉ cache))).map Art.link := by
  induction records generalizing idx with
  | nil => rfl
  | cons a rest ih =>
    by_cases hc : a.link ∈ cache
    · simp [process_articles_loop, List.filter_cons, hc, ih]
    · simp [process_articles_loop, List.filter_cons, hc, ih]

/-- Claim C5 (code_bug). The idempotence the spec states (and the
script docstrings describe) never gets a chance to run: every invocation
of the summarize stage raises `TypeError` at the
`collect_last_x_files(path=..., max_paths=NUM_DAYS)` call — before the
key cache is built and before any candidate is examined — so a second run
does not complete with zero processed items; it crashes exactly like the
first. -/
theorem summarize_run_raises_type_error (work : Art → Except String Art)
    (dirListing : List String) (readFile : String → List String)
    (records : List Art) :
    summarize_articles work dirListing readFile records
      = Except.error
          "collect_last_x_files() got an unexpected keyword argument max_paths" :=
  rfl

/-- Claim C8 (corrected), counterexample. With cache `["a"]` and
candidates `a` (skipped) then `b`, the claim predicts no delay at all
(`a` is skipped and consumes none; `b` is the first non-skipped item, so
its delay is skipped): the code waits at position 2 anyway, before even
checking the cache. Symmetrically with cache `["b"]`: candidate `b` is
skipped, yet it still consumes the position-2 delay. -/
theorem pacing_positional_cex :
    (process_articles_loop fetchOk ["a"] 1
        [{ link := "a", text := "t" }, { link := "b", text := "t" }]).2.2 = [2]
    ∧ (process_articles_loop fetchOk ["b"] 1
        [{ link := "a", text := "t" }, { link := "b", text := "t" }]).2.2 = [2] := by
  constructor <;> rfl

/-- Helper: from any position `idx ≥ 2` the loop waits before every
remaining candidate, skipped or not. -/
theorem process_waits_from (fetch : String → Except String String)
    (cache : List String) (rest : List Art) (idx : Nat) (h : 2 ≤ idx) :
    (process_articles_loop fetch cache idx rest).2.2
      = List.range' idx rest.length := by
  induction rest generalizing idx with
  | nil => rfl
  | cons a rest ih =>
    have hne : ¬ idx = 1 := by omega
    have hstep := List.range'_succ idx rest.length 1
    by_cases hc : a.link ∈ cache <;>
      simp [process_articles_loop, hc, hne, ih (idx + 1) (by omega), hstep]

/-- Claim C8 (corrected), amended. The pacing delay is positional, not
tied to processing: `random_wait` runs before every candidate except the
one at position 1, regardless of whether that candidate is then skipped —
the wait indices of a run are exactly `[2, 3, ..., n]`. So a skipped
candidate after position 1 does consume a delay, and the first actually
processed item waits whenever it is not at position 1. (The summarize
loop applies no pacing at all.) -/
theorem pacing_delay_positional (fetch : String → Except String String)
    (cache : List String) (records : List Art) :
    (process_articles_loop fetch cache 1 records).2.2
      = List.range' 2 (records.length - 1) := by
  cases records with
  | nil => rfl
  | cons a rest =>
    by_cases hc : a.link ∈ cache <;>
      simp [process_articles_loop, hc,
        process_waits_from fetch cache rest 2 (by omega)]

/-- Claim C10 (confirmed). The `all` parameter of `collect_last_x_files`
defaults to `None`, which fails the `isinstance(all, bool)` check, so
every call that does not pass `all` as a bool raises `TypeError` — for
every path, listing and `num_paths` value. In particular the pipeline's
own call sites all raise: `process_articles` (001, `all` omitted) raises
`TypeError` before its loop, and the 000/002 call sites pass the keyword
`max_paths`, which is not a parameter of the function, raising `TypeError`
at the call itself. -/
theorem collect_call_sites_raise :
    (∀ (path : String) (files : List String) (num_paths : Option Int),
        collect_last_x_files path files num_paths none
          = Except.error "`all` must be boolean.")
    ∧ (∀ d : List String, collect_call_with_max_paths d
        = Except.error
            "collect_last_x_files() got an unexpected keyword argument max_paths")
    ∧ (∀ (fetch : String → Except String String) (dirListing : List String)
        (readFile : String → List String) (records : List Art),
        process_articles fetch dirListing readFile records
          = Except.error "`all` must be boolean.") :=
  ⟨fun _ _ _ => rfl, fun _ => rfl, fun _ _ _ _ => rfl⟩
